import Mathlib

/-!
Verification of the go-livepeer off-chain settlement subsystem.

The development shallowly embeds the parts of the repository that the
claims concern:

* `eth/backend.go` (present in the corpus): the retrying remote-call
  wrapper, `SendTransaction`, and the placement of the `NonceManager`
  lock acquisitions around the nonce read and the nonce update.
* the balance-update reconciliation (`completeUpdate`), the fee
  estimator (`estimateFee`), the ticket queue and the per-rendition
  billing accumulation: the implementing files are not part of the
  corpus (only their tests are), so those definitions are modelled from
  the specification and checked against the concrete values the tests
  pin down.

Go `big.Rat` values are embedded as `ℚ`, `big.Int`/`int64` as `ℤ`,
byte strings as `List ℕ`, and fallible Go functions as `Except`/`Option`
results.  Panics are made explicit as a `panicked` flag.
-/

/-! ## Balance updates (SessionBalance reconciliation) -/

/-- The three states of a `BalanceUpdate` (spec section 3, `BalanceStatus`). -/
inductive BalanceStatus where
  | Staged
  | CreditSpent
  | ReceivedChange
deriving DecidableEq

/-- Ephemeral record of one reconciliation cycle (spec section 3,
`BalanceUpdate`): existing credit, newly minted credit, ticket count,
debit, and the status reached when the exchange completed. -/
structure BalanceUpdate where
  existingCredit : ℚ
  newCredit : ℚ
  numTickets : ℕ
  debit : ℚ
  status : BalanceStatus
deriving DecidableEq

/-- Modelled from the spec: `completeUpdate` of spec section 4.2
(`completeBalanceUpdate` in `server/segment_rpc.go`, which is not in the
corpus; only its tests are).  The returned list records the `Credit`
calls issued on the session balance, in order: a `Staged` update is
refunded in full, a `CreditSpent` update receives nothing, and a
`ReceivedChange` update receives the (possibly negative) change
`existingCredit + newCredit - actuallyBilledAmount`. -/
def completeUpdate (u : BalanceUpdate) (actuallyBilledAmount : ℚ) : List ℚ :=
  match u.status with
  | BalanceStatus.Staged => [u.existingCredit + u.newCredit]
  | BalanceStatus.CreditSpent => []
  | BalanceStatus.ReceivedChange =>
      [u.existingCredit + u.newCredit - actuallyBilledAmount]

/-! ## Ticket queue -/

/-- A signed winning ticket as used by the queue tests
(`pm/queue_test.go`, `defaultSignedTicket`): ticket fields, the sender
signature bytes and the recipient's revealed random value. -/
structure SignedTicket where
  faceValue : ℤ
  senderNonce : ℕ
  paramsExpirationBlock : ℤ
  sig : List ℕ
  recipientRand : ℤ
deriving DecidableEq

/-- The ticket built by `defaultSignedTicket` in `pm/queue_test.go`:
face value 50, the given sender nonce, expiration block 0, signature
bytes of the ASCII string foo, recipient rand 7. -/
def defaultSignedTicket (n : ℕ) : SignedTicket :=
  { faceValue := 50
    senderNonce := n
    paramsExpirationBlock := 0
    sig := [102, 111, 111]
    recipientRand := 7 }

/-- A message into the ticket-queue loop: either a concurrent `Add` or a
new-block redemption trigger. -/
inductive QueueMsg where
  | add (t : SignedTicket)
  | blockTrigger (blockNum : ℤ)
deriving DecidableEq

/-- The observable state of the ticket queue: the current backlog and
the tickets emitted so far to the redeemable sink, in emission order. -/
structure TicketQueueState where
  backlog : List SignedTicket
  emitted : List SignedTicket
deriving DecidableEq

/-- Modelled from the spec: the ticket-queue loop body of spec section
4.4 (`pm/queue.go` is not in the corpus; only its tests are).  The loop
handles its two input sources strictly sequentially: an `Add` appends to
the backlog, and a block trigger drains the entire current backlog to
the redeemable sink, oldest first. -/
def ticketQueueStep (s : TicketQueueState) (m : QueueMsg) : TicketQueueState :=
  match m with
  | QueueMsg.add t => { s with backlog := s.backlog ++ [t] }
  | QueueMsg.blockTrigger _ =>
      { backlog := [], emitted := s.emitted ++ s.backlog }

/-- Runs the ticket-queue loop from the empty queue over a sequence of
messages. -/
def runTicketQueue (msgs : List QueueMsg) : TicketQueueState :=
  msgs.foldl ticketQueueStep { backlog := [], emitted := [] }

/-- The message sequence of `TestTicketQueueLoop`: ten `Add`s with
sender nonces 0..9 followed by a single block trigger. -/
def c7Msgs : List QueueMsg :=
  ((List.range 10).map fun i => QueueMsg.add (defaultSignedTicket i))
    ++ [QueueMsg.blockTrigger 1]

/-! ## Per-rendition billing accumulation -/

/-- Modelled from the spec: the billed-pixel accumulation of spec
section 4.2 (the loop in `server/segment_rpc.go` over transcoded
renditions, not in the corpus; only its tests are).  Each rendition is a
pair of its pixel count and whether persisting it succeeded; a
persistence failure stops accumulation for that rendition and all
subsequent ones, while renditions billed before the failure remain
billed. -/
def billedPixels : List (ℤ × Bool) → ℤ
  | [] => 0
  | r :: rest => if r.2 then r.1 + billedPixels rest else 0

/-- Modelled from the spec: the debiting performed by `serveSegment`
(spec sections 4.2 and 7).  `none` stands for a transcode failure, in
which case `DebitFees` is still called with 0 pixels; otherwise the
successfully persisted prefix is billed.  The boolean records that
`DebitFees` was called. -/
def serveSegmentDebit (transcodeResult : Option (List (ℤ × Bool))) : ℤ × Bool :=
  match transcodeResult with
  | none => (0, true)
  | some rs => (billedPixels rs, true)

/-! ## Fee estimation -/

/-- An output profile as far as the fee estimator consumes it: the
resolution string and the frame rate (`ffmpeg.VideoProfile`). -/
structure VideoProfile where
  resolution : String
  framerate : ℕ
deriving DecidableEq

/-- A media segment as far as the fee estimator consumes it: its
duration in seconds (`stream.HLSSegment.Duration`). -/
structure HLSSegment where
  duration : ℚ
deriving DecidableEq

/-- Splits a character list on every occurrence of the separator
character, keeping empty groups, as `strings.Split` does for a
single-character separator. -/
def splitOnChar (c : Char) : List Char → List (List Char)
  | [] => [[]]
  | a :: rest =>
      match splitOnChar c rest with
      | [] => [[]]
      | grp :: gs => if a = c then [] :: grp :: gs else (a :: grp) :: gs

/-- Reads a decimal digit sequence left to right, failing on any
non-digit character. -/
def charsToNatAux : List Char → ℕ → Option ℕ
  | [], acc => some acc
  | c :: rest, acc =>
      if 48 ≤ c.toNat ∧ c.toNat ≤ 57 then
        charsToNatAux rest (acc * 10 + (c.toNat - 48))
      else none

/-- Parses a non-empty decimal numeral, as `strconv.Atoi` accepts for
the width and height components of a resolution string. -/
def charsToNat (cs : List Char) : Option ℕ :=
  match cs with
  | [] => none
  | _ => charsToNatAux cs 0

/-- Modelled from the spec: parsing a profile resolution string of the
form WxH into a width and a height (`ffmpeg.VideoProfileResolution`,
not in the corpus); any other shape fails.  The separator is the
character x (code point 120). -/
def videoProfileResolution (p : VideoProfile) : Except String (ℕ × ℕ) :=
  match splitOnChar (Char.ofNat 120) p.resolution.data with
  | [w, h] =>
      match charsToNat w, charsToNat h with
      | some wn, some hn => Except.ok (wn, hn)
      | _, _ => Except.error "invalid resolution"
  | _ => Except.error "invalid resolution"

/-- Modelled from the spec: the fixed safety multiplier applied by the
fee estimator (`pixelEstimateMultiplier` in `server/segment_rpc.go`,
not in the corpus).  Its concrete value is immaterial to the claims. -/
def pixelEstimateMultiplier : ℚ := 7 / 5

/-- Modelled from the spec: the per-profile pixel accumulation of spec
section 4.1: each profile contributes width times height times frame
rate times the (ceiling of the) duration; a resolution parse failure on
any profile aborts the whole sum. -/
def totalPixels (dur : ℤ) : List VideoProfile → Except String ℤ
  | [] => Except.ok 0
  | p :: rest =>
      match videoProfileResolution p with
      | Except.error e => Except.error e
      | Except.ok (w, h) =>
          match totalPixels dur rest with
          | Except.error e => Except.error e
          | Except.ok acc =>
              Except.ok (((w * h * p.framerate : ℕ) : ℤ) * dur + acc)

/-- Modelled from the spec: `estimateFee` of spec section 4.1
(`server/segment_rpc.go`, not in the corpus; only its tests are).  A nil
price short-circuits to a nil fee with no error; otherwise the summed
pixels are multiplied by the fixed multiplier and the price. -/
def estimateFee (seg : HLSSegment) (profiles : List VideoProfile)
    (priceInfo : Option ℚ) : Except String (Option ℚ) :=
  match priceInfo with
  | none => Except.ok none
  | some price =>
      match totalPixels ⌈seg.duration⌉ profiles with
      | Except.error e => Except.error e
      | Except.ok pixels =>
          Except.ok (some ((pixels : ℚ) * pixelEstimateMultiplier * price))

/-- Whether an `Except` result is an error. -/
def exceptIsError {α : Type} (x : Except String α) : Bool :=
  match x with
  | Except.error _ => true
  | Except.ok _ => false

/-- The 144p 16x9 profile used by `TestEstimateFee`
(`ffmpeg.P144p30fps16x9`): 256x144 at 30 frames per second. -/
def P144p30fps16x9 : VideoProfile := { resolution := "256x144", framerate := 30 }

/-- The 240p 16x9 profile used by `TestEstimateFee`
(`ffmpeg.P240p30fps16x9`): 426x240 at 30 frames per second. -/
def P240p30fps16x9 : VideoProfile := { resolution := "426x240", framerate := 30 }

/-! ## eth/backend.go: SendTransaction -/

/-- The inputs that determine one call of `backend.SendTransaction`
(`eth/backend.go`, lines 71-108): the outcome of the underlying
`ethclient` send, the outcome of `tx.AsMessage` (the sender address on
success), the transaction nonce, the transaction data payload and the
outcome of `decodeTxParams`. -/
structure TxSubmission where
  sendErr : Option String
  asMessage : Except String ℕ
  txNonce : ℕ
  data : List ℕ
  decodeErr : Option String

/-- The observable outcome of one `backend.SendTransaction` call: the
`NonceManager.Update` calls it performed (sender address and nonce), a
flag recording an out-of-bounds slice panic, and the returned error. -/
structure SendTxResult where
  nonceUpdates : List (ℕ × ℕ)
  panicked : Bool
  ret : Option String
deriving DecidableEq

/-- Embedding of `backend.SendTransaction` (`eth/backend.go`, lines
71-108).  The client send has already happened and produced `sendErr`.
An `AsMessage` failure returns that error before any nonce update.
Otherwise the local nonce is updated (under the per-address lock)
regardless of `sendErr`; then `data` is sliced as `data[:4]`, which in
Go panics when the payload is shorter than 4 bytes; then a
`decodeTxParams` failure is returned, and finally `sendErr` is returned
when it is non-nil. -/
def sendTransaction (t : TxSubmission) : SendTxResult :=
  match t.asMessage with
  | Except.error e => { nonceUpdates := [], panicked := false, ret := some e }
  | Except.ok sender =>
      let updates := [(sender, t.txNonce)]
      if t.data.length < 4 then
        { nonceUpdates := updates, panicked := true, ret := none }
      else
        match t.decodeErr with
        | some e => { nonceUpdates := updates, panicked := false, ret := some e }
        | none => { nonceUpdates := updates, panicked := false, ret := t.sendErr }

/-! ## eth/backend.go: retryRemoteCall -/

/-- The retry condition of `backend.retryRemoteCall` (`eth/backend.go`,
line 128): the previous attempt failed and its error message is exactly
EOF or exactly the tls closed-connection message. -/
def remoteCallTransient (err : Option String) : Bool :=
  match err with
  | some msg => msg = "EOF" || msg = "tls: use of closed connection"
  | none => false

/-- Embedding of the loop of `backend.retryRemoteCall` (`eth/backend.go`,
lines 122-136).  `f i` is the result of the i-th invocation of
`remoteCall`; `i` is the index of the next attempt and the second
argument the remaining iterations of `for i := 0; i < count && retry;
i++`.  Returns the last attempt's result together with the total number
of attempts performed. -/
def retryFrom (f : ℕ → List ℕ × Option String) (i : ℕ) :
    ℕ → (List ℕ × Option String) × ℕ
  | 0 => (([], none), i)
  | 1 => (f i, i + 1)
  | rem + 2 =>
      let out := f i
      if remoteCallTransient out.2 then retryFrom f (i + 1) (rem + 1)
      else (out, i + 1)

/-- Embedding of `backend.retryRemoteCall` with its hard-coded attempt
count of 3. -/
def retryRemoteCall (f : ℕ → List ℕ × Option String) :
    (List ℕ × Option String) × ℕ :=
  retryFrom f 0 3

/-- Embedding of `backend.CallContract` (`eth/backend.go`, lines
110-114): the client call wrapped in `retryRemoteCall`. -/
def CallContract (clientCall : ℕ → List ℕ × Option String) :
    (List ℕ × Option String) × ℕ :=
  retryRemoteCall clientCall

/-- Embedding of `backend.PendingCallContract` (`eth/backend.go`, lines
116-120): the client call wrapped in `retryRemoteCall`. -/
def PendingCallContract (clientCall : ℕ → List ℕ × Option String) :
    (List ℕ × Option String) × ℕ :=
  retryRemoteCall clientCall

/-! ## Nonce serialization: backend submissions and the NonceManager -/

/-- The successive NonceManager-relevant events of one outbound
submission through the backend, in program order. -/
inductive NMInstr where
  | lock
  | next
  | unlock
  | send
  | update
deriving DecidableEq

/-- The event structure of one transaction submission through
`eth/backend.go`: `PendingNonceAt` (lines 64-69) takes the per-address
lock, reads the nonce with `Next` and releases the lock on return; the
caller then builds the signed transaction and calls `SendTransaction`
(lines 71-108), which submits to the client and only then re-takes the
lock around `Update`. -/
def submissionProgram : List NMInstr :=
  [NMInstr.lock, NMInstr.next, NMInstr.unlock,
   NMInstr.send, NMInstr.lock, NMInstr.update, NMInstr.unlock]

/-- Pointwise update of a map. -/
def gset {β : Type} (f : ℕ → β) (k : ℕ) (v : β) : ℕ → β :=
  fun x => if x = k then v else f x

/-- The shared state of concurrently running submissions: the holder of
each per-address lock, the NonceManager local counter per address, each
goroutine's nonce register, the sequence of submitted (goroutine, nonce)
pairs, and each goroutine's program counter into
`submissionProgram`. -/
structure NMState where
  lockHolder : ℕ → Option ℕ
  counter : ℕ → ℕ
  reg : ℕ → ℕ
  sent : List (ℕ × ℕ)
  pc : ℕ → ℕ

/-- One interleaving step: goroutine `g` (whose sender address is
`addrOf g`) executes its next instruction.  `Lock` blocks (the schedule
is invalid, yielding `none`) unless the address lock is free; `Unlock`
requires ownership.  `Next` and `Update` follow spec section 4.5,
modelled from the spec because `eth/nonce_manager.go` is not in the
corpus: `Next` returns the next unused nonce held in memory (the lazy
initial fetch from chain state is taken as 0) and `Update(addr, used)`
advances the local counter past `used`. -/
def nmStep (addrOf : ℕ → ℕ) (s : NMState) (g : ℕ) : Option NMState :=
  match submissionProgram[s.pc g]? with
  | none => none
  | some NMInstr.lock =>
      match s.lockHolder (addrOf g) with
      | none => some { s with lockHolder := gset s.lockHolder (addrOf g) (some g),
                              pc := gset s.pc g (s.pc g + 1) }
      | some _ => none
  | some NMInstr.next =>
      some { s with reg := gset s.reg g (s.counter (addrOf g)),
                    pc := gset s.pc g (s.pc g + 1) }
  | some NMInstr.unlock =>
      match s.lockHolder (addrOf g) with
      | some h => if h = g then
            some { s with lockHolder := gset s.lockHolder (addrOf g) none,
                          pc := gset s.pc g (s.pc g + 1) }
          else none
      | none => none
  | some NMInstr.send =>
      some { s with sent := s.sent ++ [(g, s.reg g)],
                    pc := gset s.pc g (s.pc g + 1) }
  | some NMInstr.update =>
      some { s with counter := gset s.counter (addrOf g) (s.reg g + 1),
                    pc := gset s.pc g (s.pc g + 1) }

/-- The initial state: all locks free, all counters and registers 0,
nothing sent, every goroutine at the start of its submission. -/
def nmInit : NMState :=
  { lockHolder := fun _ => none
    counter := fun _ => 0
    reg := fun _ => 0
    sent := []
    pc := fun _ => 0 }

/-- Runs a schedule (a list of goroutine ids) from a given state;
`none` when some scheduled step is disabled. -/
def nmRunFrom (addrOf : ℕ → ℕ) : NMState → List ℕ → Option NMState
  | s, [] => some s
  | s, g :: rest =>
      match nmStep addrOf s g with
      | none => none
      | some s2 => nmRunFrom addrOf s2 rest

/-- Runs a schedule from the initial state. -/
def nmRun (addrOf : ℕ → ℕ) (sched : List ℕ) : Option NMState :=
  nmRunFrom addrOf nmInit sched

/-- The submitted (goroutine, nonce) pairs of a schedule. -/
def nmSent (addrOf : ℕ → ℕ) (sched : List ℕ) : Option (List (ℕ × ℕ)) :=
  (nmRun addrOf sched).map NMState.sent

/-- The final program counter of a goroutine after a schedule. -/
def nmPc (addrOf : ℕ → ℕ) (sched : List ℕ) (g : ℕ) : Option ℕ :=
  (nmRun addrOf sched).map (fun s => s.pc g)

/-- The final holder of a goroutine's address lock after a schedule. -/
def nmHolder (addrOf : ℕ → ℕ) (sched : List ℕ) (g : ℕ) : Option (Option ℕ) :=
  (nmRun addrOf sched).map (fun s => s.lockHolder (addrOf g))

/-- A schedule of two submissions from the same address in which both
goroutines read the nonce before either submits: goroutine 0 runs
`PendingNonceAt`, goroutine 1 runs `PendingNonceAt`, both then send and
complete their `SendTransaction` nonce updates. -/
def c1SameAddrSched : List ℕ :=
  [0, 0, 0, 1, 1, 1, 0, 1, 0, 0, 0, 1, 1, 1]

/-- A schedule in which goroutine 0 (address 0) takes its lock and then
goroutine 1 (address 1) runs its whole submission to completion before
goroutine 0 continues. -/
def c1DisjointSched : List ℕ :=
  [0] ++ List.replicate 7 1 ++ List.replicate 6 0

/-- The per-goroutine lock invariant: a goroutine holds its address lock
exactly while inside one of the two critical sections of
`submissionProgram` (after a `lock` at position 0 or 4 and before the
matching `unlock`). -/
def nmLockInv (addrOf : ℕ → ℕ) (s : NMState) : Prop :=
  ∀ g, s.lockHolder (addrOf g) = some g →
    s.pc g = 1 ∨ s.pc g = 2 ∨ s.pc g = 5 ∨ s.pc g = 6

/-! ## Theorems -/

/-- The billed amount is the pixel sum of the longest prefix of
renditions that all persisted successfully. -/
theorem billedPixels_eq_takeWhile (rs : List (ℤ × Bool)) :
    billedPixels rs = ((rs.takeWhile fun r => r.2).map Prod.fst).sum := by
  induction rs with
  | nil => rfl
  | cons r rest ih =>
      cases hr : r.2 <;> simp [billedPixels, List.takeWhile, hr, ih]

/-- Claim C3: for a balance update with status `ReceivedChange` and a
known billed amount, completing the update issues exactly one `Credit`
call, with change `existingCredit + newCredit - actuallyBilledAmount`,
unconditionally, including when the change is negative; in particular
existing 5 and new 7 yield credit 12 for billed 0, credit 3 for billed
9, and credit -96 for billed 108. -/
theorem C3_received_change_credit (e n : ℚ) (nt : ℕ) (d b : ℚ) :
    completeUpdate ⟨e, n, nt, d, BalanceStatus.ReceivedChange⟩ b = [e + n - b]
    ∧ completeUpdate ⟨5, 7, 1, 0, BalanceStatus.ReceivedChange⟩ 0 = [12]
    ∧ completeUpdate ⟨5, 7, 1, 0, BalanceStatus.ReceivedChange⟩ 9 = [3]
    ∧ completeUpdate ⟨5, 7, 1, 0, BalanceStatus.ReceivedChange⟩ 108 = [-96] := by
  refine ⟨rfl, ?_, ?_, ?_⟩ <;> simp [completeUpdate] <;> norm_num

/-- Claim C4: completing a balance update whose status is still `Staged`
credits back exactly `existingCredit + newCredit`, regardless of the
actually billed amount. -/
theorem C4_staged_refund (e n : ℚ) (nt : ℕ) (d b : ℚ) :
    completeUpdate ⟨e, n, nt, d, BalanceStatus.Staged⟩ b = [e + n] :=
  rfl

/-- Claim C5: completing a balance update with status `CreditSpent`
never calls `Credit`, regardless of the actually billed amount. -/
theorem C5_credit_spent_no_refund (e n : ℚ) (nt : ℕ) (d b : ℚ) :
    completeUpdate ⟨e, n, nt, d, BalanceStatus.CreditSpent⟩ b = [] :=
  rfl

/-- Claim C7: after adding tickets with sender nonces 0..9 in order and
firing a single drain trigger, exactly 10 tickets are emitted to the
redeemable sink, their nonces are 0,1,...,9 in insertion order, and the
queue length is 0 after the drain. -/
theorem C7_queue_fifo_drain :
    (runTicketQueue c7Msgs).emitted.map SignedTicket.senderNonce = List.range 10
    ∧ (runTicketQueue c7Msgs).emitted.length = 10
    ∧ (runTicketQueue c7Msgs).backlog.length = 0 := by
  decide

/-- Claim C8: the amount debited for a segment is the sum of the pixel
counts of only the renditions persisted successfully, accumulated in
rendition order up to and excluding the first failing rendition (the
720p/240p pair of `TestServeSegment_DebitFees_OSSaveDataError_BreakLoop`
bills only the 720p pixels), and a transcode failure still calls
`DebitFees`, with 0 pixels. -/
theorem C8_billed_prefix (rs : List (ℤ × Bool)) :
    serveSegmentDebit (some rs) = (((rs.takeWhile fun r => r.2).map Prod.fst).sum, true)
    ∧ serveSegmentDebit none = (0, true)
    ∧ serveSegmentDebit (some [(110592000, true), (6134400, false)]) = (110592000, true) := by
  refine ⟨?_, rfl, ?_⟩
  · simp [serveSegmentDebit, billedPixels_eq_takeWhile]
  · simp [serveSegmentDebit, billedPixels]

/-- A resolution parse failure on any member profile makes the whole
pixel sum fail. -/
theorem totalPixels_error (dur : ℤ) (ps : List VideoProfile) (p : VideoProfile)
    (hp : p ∈ ps) (he : exceptIsError (videoProfileResolution p) = true) :
    exceptIsError (totalPixels dur ps) = true := by
  induction ps with
  | nil => cases hp
  | cons q rest ih =>
      rcases List.mem_cons.mp hp with hq | hq
      · subst hq
        unfold totalPixels
        cases h : videoProfileResolution p with
        | error e => simp [exceptIsError]
        | ok wh => rw [h] at he; simp [exceptIsError] at he
      · unfold totalPixels
        cases h : videoProfileResolution q with
        | error e => simp [exceptIsError]
        | ok wh =>
            obtain ⟨w, hgt⟩ := wh
            have := ih hq
            cases hr : totalPixels dur rest with
            | error e => simp [exceptIsError]
            | ok acc => rw [hr] at this; simp [exceptIsError] at this

/-- Claim C6: the fee estimate is the per-profile sum of width times
height times frame rate times the ceiling of the duration, times the
fixed multiplier, times the price; an empty profile list yields cost 0
with no error; a nil price yields a nil cost with no error; and an
unparsable resolution string in any profile (first or later) fails the
whole estimate with no partial sum.  The concrete cases are those of
`TestEstimateFee`: one profile at duration 2 and price 3 gives
2211840 pixels times the multiplier times 3, two profiles give 8346240,
and a fractional duration of 11/5 is ceiled to 3 giving 12519360. -/
theorem C6_estimate_fee :
    (∀ seg price, estimateFee seg [] (some price) = Except.ok (some 0))
    ∧ (∀ seg profiles, estimateFee seg profiles none = Except.ok none)
    ∧ (∀ seg price profiles p, p ∈ profiles →
        exceptIsError (videoProfileResolution p) = true →
        exceptIsError (estimateFee seg profiles (some price)) = true)
    ∧ (∀ dur w h p rest, videoProfileResolution p = Except.ok (w, h) →
        totalPixels dur (p :: rest)
          = Except.map (fun acc => ((w * h * p.framerate : ℕ) : ℤ) * dur + acc)
              (totalPixels dur rest))
    ∧ estimateFee ⟨2⟩ [P144p30fps16x9] (some 3)
        = Except.ok (some (2211840 * pixelEstimateMultiplier * 3))
    ∧ estimateFee ⟨2⟩ [P144p30fps16x9, P240p30fps16x9] (some 3)
        = Except.ok (some (8346240 * pixelEstimateMultiplier * 3))
    ∧ estimateFee ⟨11/5⟩ [P144p30fps16x9, P240p30fps16x9] (some 3)
        = Except.ok (some (12519360 * pixelEstimateMultiplier * 3)) := by
  have h2 : (⌈((2 : ℚ))⌉ : ℤ) = 2 := by norm_num
  have h22 : (⌈((11 : ℚ)/5)⌉ : ℤ) = 3 := by
    rw [Int.ceil_eq_iff]
    norm_num
  refine ⟨?_, ?_, ?_, ?_, ?_, ?_, ?_⟩
  · intro seg price
    simp [estimateFee, totalPixels]
  · intro seg profiles
    rfl
  · intro seg price profiles p hp he
    unfold estimateFee
    cases hr : totalPixels ⌈seg.duration⌉ profiles with
    | error e => simp [exceptIsError]
    | ok pixels =>
        have := totalPixels_error ⌈seg.duration⌉ profiles p hp he
        rw [hr] at this
        simp [exceptIsError] at this
  · intro dur w h p rest hp
    cases htr : totalPixels dur rest with
    | error e => simp [totalPixels, hp, htr, Except.map]
    | ok acc => simp [totalPixels, hp, htr, Except.map]
  · have ht1 : totalPixels 2 [P144p30fps16x9] = Except.ok 2211840 := rfl
    unfold estimateFee
    dsimp only
    rw [h2, ht1]
    simp [pixelEstimateMultiplier]
  · have ht2 : totalPixels 2 [P144p30fps16x9, P240p30fps16x9] = Except.ok 8346240 := rfl
    unfold estimateFee
    dsimp only
    rw [h2, ht2]
    simp [pixelEstimateMultiplier]
  · have ht3 : totalPixels 3 [P144p30fps16x9, P240p30fps16x9] = Except.ok 12519360 := rfl
    unfold estimateFee
    dsimp only
    rw [h22, ht3]
    simp [pixelEstimateMultiplier]

/-- Claim C6 witness: a profile whose resolution string is foo fails to
parse, and its presence in second position makes the whole estimate an
error. -/
theorem C6_estimate_fee_witness :
    (VideoProfile.mk "foo" 30) ∈ [P144p30fps16x9, VideoProfile.mk "foo" 30]
    ∧ exceptIsError (videoProfileResolution (VideoProfile.mk "foo" 30)) = true
    ∧ exceptIsError
        (estimateFee ⟨2⟩ [P144p30fps16x9, VideoProfile.mk "foo" 30] (some 1)) = true
    ∧ videoProfileResolution P144p30fps16x9 = Except.ok (256, 144)
    ∧ totalPixels 2 [P144p30fps16x9]
        = Except.map
            (fun acc => ((256 * 144 * P144p30fps16x9.framerate : ℕ) : ℤ) * 2 + acc)
            (totalPixels 2 []) :=
  ⟨by simp, rfl,
    C6_estimate_fee.2.2.1 ⟨2⟩ 1 [P144p30fps16x9, VideoProfile.mk "foo" 30]
      (VideoProfile.mk "foo" 30) (by simp) rfl,
    rfl,
    C6_estimate_fee.2.2.2.1 2 256 144 P144p30fps16x9 [] rfl⟩

/-- Claim C2 counterexample: a `SendTransaction` call whose client send
failed (and whose message parses, with payload long enough to avoid the
slice panic and no decode failure) returns the send error and has
nevertheless advanced the local nonce state with
`NonceManager.Update(sender, tx.Nonce())`. -/
theorem C2_update_on_send_error :
    sendTransaction { sendErr := some "send failed", asMessage := Except.ok 1,
                      txNonce := 5, data := [0, 0, 0, 0], decodeErr := none }
      = { nonceUpdates := [(1, 5)], panicked := false, ret := some "send failed" } :=
  rfl

/-- Claim C2 amended: `SendTransaction` invokes `NonceManager.Update`
with the transaction's nonce whenever `tx.AsMessage` succeeds,
regardless of whether the client send succeeded; only an `AsMessage`
failure leaves the local nonce state unchanged. -/
theorem C2_nonce_update_unconditional :
    (∀ t s, t.asMessage = Except.ok s →
        (sendTransaction t).nonceUpdates = [(s, t.txNonce)])
    ∧ (∀ t e, t.asMessage = Except.error e →
        (sendTransaction t).nonceUpdates = []) := by
  constructor
  · intro t s hmsg
    simp only [sendTransaction, hmsg]
    split
    · rfl
    · split <;> rfl
  · intro t e hmsg
    simp only [sendTransaction, hmsg]

/-- Claim C2 amended witness: on a concrete failed send the nonce update
still happens. -/
theorem C2_nonce_update_unconditional_witness :
    ({ sendErr := some "send failed", asMessage := Except.ok 1, txNonce := 5,
       data := [], decodeErr := none } : TxSubmission).asMessage = Except.ok 1
    ∧ (sendTransaction { sendErr := some "send failed", asMessage := Except.ok 1,
                         txNonce := 5, data := [], decodeErr := none }).nonceUpdates
        = [(1, 5)]
    ∧ ({ sendErr := none, asMessage := Except.error "no sig", txNonce := 0,
         data := [], decodeErr := none } : TxSubmission).asMessage
        = Except.error "no sig"
    ∧ (sendTransaction { sendErr := none, asMessage := Except.error "no sig",
                         txNonce := 0, data := [], decodeErr := none }).nonceUpdates
        = [] :=
  ⟨rfl, C2_nonce_update_unconditional.1 _ 1 rfl, rfl,
    C2_nonce_update_unconditional.2 _ "no sig" rfl⟩

/-- Claim C9: the remote-call retry wrapper shared by `CallContract` and
`PendingCallContract` performs at most 3 attempts (and at least 1),
returns the last attempt's result, re-attempts only when the previous
attempt failed with exactly EOF or the tls closed-connection message,
and returns after the first attempt on success or on any other
error. -/
theorem C9_retry_remote_call (f : ℕ → List ℕ × Option String) :
    CallContract f = retryRemoteCall f
    ∧ PendingCallContract f = retryRemoteCall f
    ∧ 1 ≤ (retryRemoteCall f).2
    ∧ (retryRemoteCall f).2 ≤ 3
    ∧ (retryRemoteCall f).1 = f ((retryRemoteCall f).2 - 1)
    ∧ (∀ j, j + 1 < (retryRemoteCall f).2 → remoteCallTransient (f j).2 = true)
    ∧ (remoteCallTransient (f 0).2 = false → (retryRemoteCall f).2 = 1) := by
  refine ⟨rfl, rfl, ?_⟩
  by_cases h0 : remoteCallTransient (f 0).2
  · by_cases h1 : remoteCallTransient (f 1).2
    · have hr : retryRemoteCall f = (f 2, 3) := by
        simp [retryRemoteCall, retryFrom, h0, h1]
      rw [hr]
      refine ⟨by norm_num, by norm_num, by norm_num, ?_, ?_⟩
      · intro j hj
        have hj2 : j + 1 < 3 := hj
        rcases j with _ | _ | j
        · exact h0
        · exact h1
        · omega
      · intro hc
        rw [hc] at h0
        exact absurd h0 (by simp)
    · have hr : retryRemoteCall f = (f 1, 2) := by
        simp [retryRemoteCall, retryFrom, h0, h1]
      rw [hr]
      refine ⟨by norm_num, by norm_num, by norm_num, ?_, ?_⟩
      · intro j hj
        have hj2 : j + 1 < 2 := hj
        rcases j with _ | j
        · exact h0
        · omega
      · intro hc
        rw [hc] at h0
        exact absurd h0 (by simp)
  · have hr : retryRemoteCall f = (f 0, 1) := by
      simp [retryRemoteCall, retryFrom, h0]
    rw [hr]
    refine ⟨by norm_num, by norm_num, by norm_num, ?_, ?_⟩
    · intro j hj
      have hj2 : j + 1 < 1 := hj
      omega
    · intro hc
      rfl

/-- Claim C9 witness: a remote call that succeeds on the first attempt
is performed exactly once. -/
theorem C9_retry_remote_call_witness :
    remoteCallTransient ((fun _ => (([] : List ℕ), (none : Option String))) 0).2 = false
    ∧ (retryRemoteCall (fun _ => (([] : List ℕ), (none : Option String)))).2 = 1
    ∧ 0 + 1 < (retryRemoteCall (fun _ => (([] : List ℕ), some "EOF"))).2
    ∧ remoteCallTransient ((fun _ => (([] : List ℕ), some "EOF")) 0).2 = true :=
  ⟨rfl,
    (C9_retry_remote_call (fun _ => (([] : List ℕ), (none : Option String)))).2.2.2.2.2.2 rfl,
    by decide,
    (C9_retry_remote_call (fun _ => (([] : List ℕ), some "EOF"))).2.2.2.2.2.1 0 (by decide)⟩

/-- Claim C10: `SendTransaction` slices `data[:4]` without a length
guard, so any transaction whose payload is shorter than 4 bytes (and
whose message parses) panics instead of returning an error. -/
theorem C10_short_data_panics (t : TxSubmission) (s : ℕ)
    (hmsg : t.asMessage = Except.ok s) (hlen : t.data.length < 4) :
    (sendTransaction t).panicked = true := by
  simp [sendTransaction, hmsg, hlen]

/-- Claim C10 witness: a plain value transfer with empty data payload
panics. -/
theorem C10_short_data_panics_witness :
    ({ sendErr := none, asMessage := Except.ok 0, txNonce := 0,
       data := [], decodeErr := none } : TxSubmission).asMessage = Except.ok 0
    ∧ ([] : List ℕ).length < 4
    ∧ (sendTransaction { sendErr := none, asMessage := Except.ok 0, txNonce := 0,
                         data := [], decodeErr := none }).panicked = true :=
  ⟨rfl, by decide,
    C10_short_data_panics
      { sendErr := none, asMessage := Except.ok 0, txNonce := 0,
        data := [], decodeErr := none }
      0 rfl (by decide)⟩

/-- The `lock` instruction appears exactly at positions 0 and 4 of the
submission program. -/
theorem submissionProgram_lock_pos (n : ℕ)
    (h : submissionProgram[n]? = some NMInstr.lock) : n = 0 ∨ n = 4 := by
  rcases n with _ | _ | _ | _ | _ | _ | _ | n <;> simp_all [submissionProgram]

/-- The `next` instruction appears exactly at position 1 of the
submission program. -/
theorem submissionProgram_next_pos (n : ℕ)
    (h : submissionProgram[n]? = some NMInstr.next) : n = 1 := by
  rcases n with _ | _ | _ | _ | _ | _ | _ | n <;> simp_all [submissionProgram]

/-- The `send` instruction appears exactly at position 3 of the
submission program. -/
theorem submissionProgram_send_pos (n : ℕ)
    (h : submissionProgram[n]? = some NMInstr.send) : n = 3 := by
  rcases n with _ | _ | _ | _ | _ | _ | _ | n <;> simp_all [submissionProgram]

/-- The `update` instruction appears exactly at position 5 of the
submission program. -/
theorem submissionProgram_update_pos (n : ℕ)
    (h : submissionProgram[n]? = some NMInstr.update) : n = 5 := by
  rcases n with _ | _ | _ | _ | _ | _ | _ | n <;> simp_all [submissionProgram]

/-- Every enabled interleaving step preserves the lock invariant. -/
theorem nmStep_inv (addrOf : ℕ → ℕ) (s s2 : NMState) (g : ℕ)
    (hInv : nmLockInv addrOf s) (hstep : nmStep addrOf s g = some s2) :
    nmLockInv addrOf s2 := by
  unfold nmStep at hstep
  split at hstep
  · cases hstep
  case _ hprog =>
    split at hstep
    case _ hfree =>
      injection hstep with hs
      subst hs
      intro g' h'
      dsimp only [gset] at h' ⊢
      by_cases ha : addrOf g' = addrOf g
      · rw [if_pos ha] at h'
        injection h' with hgg
        subst hgg
        rw [if_pos rfl]
        rcases submissionProgram_lock_pos _ hprog with h0 | h4 <;> omega
      · rw [if_neg ha] at h'
        have hgne : g' ≠ g := fun he => ha (by rw [he])
        rw [if_neg hgne]
        exact hInv g' h'
    case _ held =>
      cases hstep
  case _ hprog =>
    injection hstep with hs
    subst hs
    intro g' h'
    dsimp only [gset] at h' ⊢
    by_cases hg : g' = g
    · subst hg
      rw [if_pos rfl]
      have h1 : s.pc g' = 1 := submissionProgram_next_pos _ hprog
      omega
    · rw [if_neg hg]
      exact hInv g' h'
  case _ hprog =>
    split at hstep
    case _ h hheld =>
      split at hstep
      case isTrue hhg =>
        injection hstep with hs
        subst hs
        intro g' h'
        dsimp only [gset] at h' ⊢
        by_cases ha : addrOf g' = addrOf g
        · rw [if_pos ha] at h'
          cases h'
        · rw [if_neg ha] at h'
          have hgne : g' ≠ g := fun he => ha (by rw [he])
          rw [if_neg hgne]
          exact hInv g' h'
      case isFalse hhg =>
        cases hstep
    case _ hfree =>
      cases hstep
  case _ hprog =>
    injection hstep with hs
    subst hs
    intro g' h'
    dsimp only [gset] at h' ⊢
    by_cases hg : g' = g
    · subst hg
      rw [if_pos rfl]
      have hmem := hInv g' h'
      have h3 : s.pc g' = 3 := submissionProgram_send_pos _ hprog
      omega
    · rw [if_neg hg]
      exact hInv g' h'
  case _ hprog =>
    injection hstep with hs
    subst hs
    intro g' h'
    dsimp only [gset] at h' ⊢
    by_cases hg : g' = g
    · subst hg
      rw [if_pos rfl]
      have hmem := hInv g' h'
      have h5 : s.pc g' = 5 := submissionProgram_update_pos _ hprog
      omega
    · rw [if_neg hg]
      exact hInv g' h'

/-- Running any schedule preserves the lock invariant. -/
theorem nmRunFrom_inv (addrOf : ℕ → ℕ) (sched : List ℕ) :
    ∀ s s2, nmLockInv addrOf s → nmRunFrom addrOf s sched = some s2 →
      nmLockInv addrOf s2 := by
  induction sched with
  | nil =>
      intro s s2 hInv hrun
      unfold nmRunFrom at hrun
      injection hrun with h
      subst h
      exact hInv
  | cons g rest ih =>
      intro s s2 hInv hrun
      unfold nmRunFrom at hrun
      cases hstep : nmStep addrOf s g with
      | none =>
          simp only [hstep] at hrun
          cases hrun
      | some s1 =>
          simp only [hstep] at hrun
          exact ih s1 s2 (nmStep_inv addrOf s s1 g hInv hstep) hrun

/-- The initial state satisfies the lock invariant. -/
theorem nmInit_inv (addrOf : ℕ → ℕ) : nmLockInv addrOf nmInit := by
  intro g h
  simp [nmInit] at h

/-- Claim C1 counterexample: a valid interleaving of two submissions
from the same address in which both goroutines run `PendingNonceAt`
(lock, `Next`, unlock) before either reaches its client send, so both
submissions are sent with nonce 0 — the per-address lock is not held
across read, build and submit, and the same nonce is used twice. -/
theorem C1_nonce_reuse :
    nmSent (fun _ => 0) c1SameAddrSched = some [(0, 0), (1, 0)] := by
  rfl

/-- Claim C1 amended: in `eth/backend.go` the per-address NonceManager
lock is held only across the nonce read inside `PendingNonceAt` and,
separately, across the nonce update inside `SendTransaction`, not
across the whole read, build and submit sequence: in every valid
schedule a goroutine holds no lock at its send step (so concurrent
same-address submissions can read and then send the same nonce), while
the locks are per-address, so a full submission for one address runs to
completion while another address's lock is held. -/
theorem C1_lock_scope :
    (∀ (addrOf : ℕ → ℕ) (sched : List ℕ) (g : ℕ),
        nmPc addrOf sched g = some 3 →
        nmHolder addrOf sched g ≠ some (some g))
    ∧ nmPc (fun g => g) c1DisjointSched 0 = some 7
    ∧ nmPc (fun g => g) c1DisjointSched 1 = some 7 := by
  refine ⟨?_, by rfl, by rfl⟩
  intro addrOf sched g hpc hhold
  unfold nmPc nmRun at hpc
  unfold nmHolder nmRun at hhold
  cases hrun : nmRunFrom addrOf nmInit sched with
  | none =>
      rw [hrun] at hpc
      cases hpc
  | some s =>
      rw [hrun] at hpc hhold
      simp only [Option.map_some'] at hpc hhold
      injection hpc with hpc3
      injection hhold with hholdg
      have hInv := nmRunFrom_inv addrOf sched nmInit s (nmInit_inv addrOf) hrun
      have hmem := hInv g hholdg
      omega

/-- Claim C1 amended witness: after lock, `Next`, unlock of a single
`PendingNonceAt`, the goroutine stands at its send step and does not
hold its address lock. -/
theorem C1_lock_scope_witness :
    nmPc (fun _ => 0) [0, 0, 0] 0 = some 3
    ∧ nmHolder (fun _ => 0) [0, 0, 0] 0 ≠ some (some 0) :=
  ⟨rfl, C1_lock_scope.1 (fun _ => 0) [0, 0, 0] 0 rfl⟩
